import Mathlib

/-!
Shallow embedding of `src/ldc_ad2cp_in_file.cpp` (Nortek AD2CP frame
scanner) and proofs about it.

The byte stream of the input file is modelled as a `List Nat` (each
element the value of one `unsigned char`).  Reading from the file
cursor is modelled by consuming elements from the front of the list;
`fseek(fp, -1, SEEK_CUR)` after the sync search is modelled by not
consuming the sync byte.  `Rf_error` (a fatal R error, which aborts
the call without returning a result) is modelled as `Except.error`.
Machine integers are modelled as `Nat` with an explicit modulus at
each narrowing: `% 2 ^ 16` where the C code stores into an
`unsigned short` (or passes an argument to an `unsigned short`
parameter), and `% 2 ^ 32` where the `unsigned int` cursor `cindex`
is advanced (lines 173, 244, 285) — so the recorded offsets wrap
exactly as the program's do on streams past 4 GiB.  `data_size` is an
`unsigned long` (64-bit) and a 4-byte little-endian decode always
fits it, so it carries no modulus.  The final copy of the unsigned
buffers into the returned 32-bit signed `IntegerVector`s
(lines 288-302) is modelled by `toInt32` / `rReturn`.
-/

deriving instance DecidableEq for Except

namespace Ad2cp

/-- A byte value (contents of an `unsigned char`). -/
abbrev Byte := Nat

/-- `#define SYNC 0xA5` -/
def SYNC : Nat := 0xA5

/-- `#define FAMILY 0x10` (parsed into the header, never enforced). -/
def FAMILY : Nat := 0x10

/-- `int ID_ALLOWED[11]` — the informative id set.  In the source the
membership test only sets a local `found` flag whose warning print is
commented out, so it has no observable effect on the scan. -/
def ID_ALLOWED : List Nat := [21, 22, 23, 24, 26, 27, 28, 29, 30, 31, 160]

/-- The loop body of `cs`: `for (i = 0; i < size; i += 2)
checksum += data[i] + 256*data[i+1];` with `checksum` an
`unsigned short` (16-bit wraparound).  The first argument counts the
remaining value of `size - i`.  An out-of-range read (which the C
source performs for odd `size`, flagged by its own FIXME) is modelled
as reading 0. -/
def csLoop : Nat → List Byte → Nat → Nat
  | 0, _, checksum => checksum
  | 1, data, checksum => (checksum + data.getD 0 0 + 256 * data.getD 1 0) % 65536
  | size + 2, data, checksum =>
      csLoop size (data.drop 2) ((checksum + data.getD 0 0 + 256 * data.getD 1 0) % 65536)

/-- `unsigned short cs(unsigned char *data, unsigned short size)` —
the running-sum checksum seeded with `0xB58C`.  The `size` parameter
has type `unsigned short`, so an argument is reduced mod `2 ^ 16` on
the call (the source calls `cs(dbuf, header.data_size)` with an
`unsigned long` data size). -/
def cs (data : List Byte) (size : Nat) : Nat :=
  csLoop (size % 65536) data 0xB58C

/-- `struct header` from the source. -/
structure Header where
  sync : Nat
  header_size : Nat
  id : Nat
  family : Nat
  data_size : Nat
  data_checksum : Nat
  header_checksum : Nat
deriving Repr, DecidableEq

/-- The distinct `Rf_error` exits of `do_ldc_ad2cp_in_file` (fatal:
the call aborts and no result list is returned). -/
inductive ScanError where
  | negativeFrom
  | negativeTo
  | negativeBy
  | noSync
  | cannotReadSync
  | syncMismatch
  | cannotReadHeaderSize
  | impossibleHeaderSize
  | cannotReadId
  | cannotReadFamily
  | cannotReadBytes2
  | cannotReadBytes4
  | badHeaderSize
  | cannotReadDataChecksum
  | cannotReadHeaderChecksum
deriving Repr, DecidableEq

/-- Reading of the data-size field (lines 220-233): 2 little-endian
bytes when `header_size == 10`, 4 little-endian bytes when
`header_size == 12`, otherwise the fatal
`"header_size must be 10 or 12"` error. -/
def readDataSize (hsz : Nat) (s : List Byte) : Except ScanError (Nat × List Byte) :=
  if hsz = 10 then
    match s with
    | b0 :: b1 :: rest => .ok (b0 + 256 * b1, rest)
    | _ => .error .cannotReadBytes2
  else if hsz = 12 then
    match s with
    | b0 :: b1 :: b2 :: b3 :: rest =>
        .ok (b0 + 256 * (b1 + 256 * (b2 + 256 * b3)), rest)
    | _ => .error .cannotReadBytes4
  else .error .badHeaderSize

/-- Header decoding, lines 205-239 of the source: the reads of
`sync`, `header_size`, `id`, `family`, the data-size field, the data
checksum and the header checksum, each failing fatally when the file
has too few bytes left; the sync re-check and the `header_size < 2`
check sit between the reads exactly as in the source.  The two
checksum fields are stored into `unsigned short`, hence the
`% 65536`. -/
def parseHeader (s : List Byte) : Except ScanError (Header × List Byte) :=
  match s with
  | [] => .error .cannotReadSync
  | sync :: s1 =>
    if sync = SYNC then
      match s1 with
      | [] => .error .cannotReadHeaderSize
      | hsz :: s2 =>
        if hsz < 2 then .error .impossibleHeaderSize
        else
          match s2 with
          | [] => .error .cannotReadId
          | idByte :: s3 =>
            match s3 with
            | [] => .error .cannotReadFamily
            | fam :: s4 =>
              match readDataSize hsz s4 with
              | .error e => .error e
              | .ok (dsz, s5) =>
                match s5 with
                | c0 :: c1 :: s6 =>
                  match s6 with
                  | h0 :: h1 :: s7 =>
                      .ok (⟨sync, hsz, idByte, fam, dsz,
                            (c0 + 256 * c1) % 65536, (h0 + 256 * h1) % 65536⟩, s7)
                  | _ => .error .cannotReadHeaderChecksum
                | _ => .error .cannotReadDataChecksum
    else .error .syncMismatch

/-- One record descriptor: the triple written into `index_buf`,
`length_buf` and `id_buf` at position `chunk` (the three parallel
output vectors, zipped). -/
structure Rec where
  index : Nat
  length : Nat
  id : Nat
deriving Repr, DecidableEq

/-- The returned list: the three parallel record vectors (zipped into
`recs`) plus the `brokenEnd` flag (`broken_end` in the source, an
`int` used as a boolean). -/
structure ScanResult where
  recs : List Rec
  brokenEnd : Bool
deriving Repr, DecidableEq

/-- The scan loop `while (chunk < to_value) { ... }` (lines 194-287).
The first argument is the remaining iteration count
`to_value - chunk`.  Per iteration: decode a header (any header-level
failure is fatal); `cindex += header_size` — `cindex` is an
`unsigned int`, so the additions at lines 244 and 285 wrap mod
`2 ^ 32`, and `index_buf[chunk]` records the wrapped value; if fewer
payload bytes remain than `data_size`, print a warning and `break` —
the in-progress record is not appended and `broken_end` is left as
is; otherwise compare `cs(dbuf, data_size)` with `data_checksum`,
setting `broken_end` on mismatch, append the record and continue
(`length_buf` stores `data_size`, which a 4-byte decode never
overflows).  Buffer
reallocation (lines 195-204, 264-268) only manages memory and does not
affect the returned values, so it has no counterpart here. -/
def scanLoop : Nat → List Byte → Nat → List Rec → Bool → Except ScanError ScanResult
  | 0, _, _, acc, broken => .ok ⟨acc, broken⟩
  | fuel + 1, stream, cindex, acc, broken =>
    match parseHeader stream with
    | .error e => .error e
    | .ok (h, rest) =>
      if rest.length < h.data_size then
        .ok ⟨acc, broken⟩
      else
        scanLoop fuel (rest.drop h.data_size)
          (((cindex + h.header_size) % 4294967296 + h.data_size) % 4294967296)
          (acc ++ [⟨(cindex + h.header_size) % 4294967296, h.data_size, h.id⟩])
          (if cs (rest.take h.data_size) h.data_size ≠ h.data_checksum then true
           else broken)

/-- The sync search (lines 162-174): step through the file until a
`SYNC` byte is found, counting skipped bytes into `cindex` — an
`unsigned int`, so the `cindex++` at line 173 wraps mod `2 ^ 32`; on
success the cursor is rewound onto the sync byte.  `none` models the
fatal `"this file does not contain a single 0xA5 byte"` error at
EOF. -/
def syncSearch : List Byte → Option (Nat × List Byte)
  | [] => none
  | c :: rest =>
    if c = SYNC then some (0, c :: rest)
    else
      match syncSearch rest with
      | none => none
      | some (k, r) => some ((k + 1) % 4294967296, r)

/-- `do_ldc_ad2cp_in_file(filename, from, to, by, DEBUG)`.  The file
contents stand in for the filename (opening the file is outside the
model); `DEBUG` only controls `Rprintf` logging and is omitted.  The
negativity checks on `from`, `to`, `by` (lines 134-141) happen in this
order before anything else; `to_value` is the (nonnegative) value of
`to`; `from` and `by` are never used again in the source (their uses
are commented out).  The returned `ScanResult` holds the `unsigned
int` buffer contents; the final copy into 32-bit signed
`IntegerVector`s (lines 288-302) is the separate step `rReturn`. -/
def do_ldc_ad2cp_in_file (stream : List Byte) (from_ to_ by_ : Int) :
    Except ScanError ScanResult :=
  if from_ < 0 then .error .negativeFrom
  else if to_ < 0 then .error .negativeTo
  else if by_ < 0 then .error .negativeBy
  else
    match syncSearch stream with
    | none => .error .noSync
    | some (cindex, rest) => scanLoop to_.toNat rest cindex [] false

/-- Conversion of an `unsigned int` value to the 32-bit signed `int`
slot of an Rcpp `IntegerVector` (two's-complement
reinterpretation). -/
def toInt32 (n : Nat) : Int :=
  if n % 4294967296 < 2147483648 then (n % 4294967296 : Int)
  else (n % 4294967296 : Int) - 4294967296

/-- The copy into the returned list (lines 288-302): each entry of
the unsigned `index`/`length`/`id` buffers is narrowed to a 32-bit
signed int, and `broken_end` is returned as the `int` it is. -/
def rReturn (res : ScanResult) : List Int × List Int × List Int × Int :=
  (res.recs.map fun r => toInt32 r.index,
   res.recs.map fun r => toInt32 r.length,
   res.recs.map fun r => toInt32 r.id,
   if res.brokenEnd then 1 else 0)

/-- The checksum formula exactly as the specification states it
(§4.3): a 16-bit value `0xB58C` plus the sum of
`byte[i] + 256*byte[i+1]` over `i = 0, 2, 4, …` across the whole
payload, mod `2 ^ 16`.  Used to compare the code's `cs` against the
spec's words. -/
def specPairSum : List Byte → Nat
  | b0 :: b1 :: rest => b0 + 256 * b1 + specPairSum rest
  | _ => 0

/-- Spec §4.3 checksum of a whole payload. -/
def specChecksum (data : List Byte) : Nat :=
  (0xB58C + specPairSum data) % 65536

/-- The offset chain of a record list, started at cursor position
`c`: each record's payload offset is the previous cursor position plus
that record's (10- or 12-byte) header size, and the cursor then moves
past the payload — all in the wrapping `unsigned int` arithmetic of
the source's `cindex`. -/
def chainedFrom : Nat → List Rec → Prop
  | _, [] => True
  | c, r :: rs =>
      (r.index = (c + 10) % 4294967296 ∨ r.index = (c + 12) % 4294967296)
      ∧ chainedFrom ((r.index + r.length) % 4294967296) rs

/-- Shift a record descriptor's offset by `m` bytes in the wrapping
32-bit cursor arithmetic (length and id untouched). -/
def shiftRec32 (m : Nat) (r : Rec) : Rec :=
  ⟨(m + r.index) % 4294967296, r.length, r.id⟩

/-- Shift every record offset of a scan outcome by `m` mod `2 ^ 32`;
errors and the integrity flag are untouched. -/
def shiftResult32 (m : Nat) : Except ScanError ScanResult → Except ScanError ScanResult
  | .error e => .error e
  | .ok res => .ok ⟨res.recs.map (shiftRec32 m), res.brokenEnd⟩

/-- A well-formed 12-byte frame: header size 10, id 21, family 0x10,
2 payload bytes `[1, 1]` whose checksum `0xB58C + 1 + 256 = 46733`
matches the header's data-checksum field `141 + 256*182 = 46733`. -/
def goodFrame : List Byte :=
  [0xA5, 10, 21, 0x10, 2, 0, 141, 182, 0, 0, 1, 1]

/-- A second well-formed frame (id 22), same shape as `goodFrame`. -/
def goodFrame2 : List Byte :=
  [0xA5, 10, 22, 0x10, 2, 0, 141, 182, 0, 0, 1, 1]

/-- A frame like `goodFrame` but whose data-checksum field (0) does
not match the payload checksum (46733). -/
def badFrame : List Byte :=
  [0xA5, 10, 21, 0x10, 2, 0, 0, 0, 0, 0, 1, 1]

/-- `goodFrame` followed by a frame whose header declares 4 payload
bytes while only 1 remains in the stream (truncated final payload). -/
def truncatedStream : List Byte :=
  goodFrame ++ [0xA5, 10, 22, 0x10, 4, 0, 0, 0, 0, 0, 9]

/-- What follows the 12-byte header of the big frame below: a payload
of `2 ^ 32 - 12 = 4294967284` zero bytes (its checksum is the seed
0xB58C = 46476, matching the header's data-checksum field), then
`goodFrame2`. -/
def bigTail : List Byte := List.replicate 4294967284 0 ++ goodFrame2

/-- A header-size-12 frame declaring a `4294967284`-byte payload
(little-endian bytes `244, 255, 255, 255`), its payload, and then
`goodFrame2`: after the first frame the cursor reaches
`12 + 4294967284 = 2 ^ 32` and wraps to 0, so the second record's
offset is 10 < 12. -/
def bigStream : List Byte :=
  0xA5 :: 12 :: 21 :: 0x10 :: 244 :: 255 :: 255 :: 255 :: 140 :: 181 :: 0 :: 0 :: bigTail

example : cs [1, 1] 2 = 46733 := by decide

example : do_ldc_ad2cp_in_file goodFrame 1 1 1 = .ok ⟨[⟨10, 2, 21⟩], false⟩ := by decide

example : do_ldc_ad2cp_in_file (goodFrame ++ goodFrame2) 1 2 1
    = .ok ⟨[⟨10, 2, 21⟩, ⟨22, 2, 22⟩], false⟩ := by decide

/-- Inversion for the data-size read: a success determines
`header_size ∈ {10, 12}` and the exact bytes consumed. -/
lemma readDataSize_ok_shape (hsz : Nat) (s : List Byte) (dsz : Nat) (r : List Byte)
    (hp : readDataSize hsz s = .ok (dsz, r)) :
    (hsz = 10 ∧ ∃ b0 b1, s = b0 :: b1 :: r ∧ dsz = b0 + 256 * b1)
    ∨ (hsz = 12 ∧ ∃ b0 b1 b2 b3, s = b0 :: b1 :: b2 :: b3 :: r ∧
        dsz = b0 + 256 * (b1 + 256 * (b2 + 256 * b3))) := by
  unfold readDataSize at hp
  split at hp
  · split at hp
    · left
      rename_i b0 b1 rest
      simp only [Except.ok.injEq, Prod.mk.injEq] at hp
      exact ⟨by assumption, b0, b1, by rw [hp.2], hp.1.symm⟩
    · simp at hp
  · split at hp
    · split at hp
      · right
        rename_i b0 b1 b2 b3 rest
        simp only [Except.ok.injEq, Prod.mk.injEq] at hp
        exact ⟨by assumption, b0, b1, b2, b3, by rw [hp.2], hp.1.symm⟩
      · simp at hp
    · simp at hp

/-- Anatomy of a successful header decode: the stream begins with a
complete 10- or 12-byte header whose fields are the decoded
little-endian values, and the returned remainder is exactly the
stream after those header bytes. -/
lemma parseHeader_ok_shape (s : List Byte) (h : Header) (r : List Byte)
    (hp : parseHeader s = .ok (h, r)) :
    (∃ idB fam b0 b1 c0 c1 h0 h1,
        s = SYNC :: 10 :: idB :: fam :: b0 :: b1 :: c0 :: c1 :: h0 :: h1 :: r ∧
        h = ⟨SYNC, 10, idB, fam, b0 + 256 * b1,
             (c0 + 256 * c1) % 65536, (h0 + 256 * h1) % 65536⟩)
    ∨ (∃ idB fam b0 b1 b2 b3 c0 c1 h0 h1,
        s = SYNC :: 12 :: idB :: fam :: b0 :: b1 :: b2 :: b3 :: c0 :: c1 :: h0 :: h1 :: r ∧
        h = ⟨SYNC, 12, idB, fam, b0 + 256 * (b1 + 256 * (b2 + 256 * b3)),
             (c0 + 256 * c1) % 65536, (h0 + 256 * h1) % 65536⟩) := by
  unfold parseHeader at hp
  repeat' split at hp
  all_goals try exact Except.noConfusion hp
  rename readDataSize _ _ = Except.ok _ => heq
  rename _ = SYNC => hsy
  simp only [Except.ok.injEq, Prod.mk.injEq] at hp
  obtain ⟨hh, hr⟩ := hp
  subst hsy
  rcases readDataSize_ok_shape _ _ _ _ heq with ⟨h10, b0, b1, hs4, hdsz⟩ |
    ⟨h12, b0, b1, b2, b3, hs4, hdsz⟩
  · subst h10 hdsz hs4 hr
    left
    exact ⟨_, _, b0, b1, _, _, _, _, rfl, hh.symm⟩
  · subst h12 hdsz hs4 hr
    right
    exact ⟨_, _, b0, b1, b2, b3, _, _, _, _, rfl, hh.symm⟩

/-- A successfully decoded header has size 10 or 12, the size is the
second byte of the stream, and exactly `header_size` bytes were
consumed. -/
lemma parseHeader_ok_size (s : List Byte) (h : Header) (r : List Byte)
    (hp : parseHeader s = .ok (h, r)) :
    (h.header_size = 10 ∨ h.header_size = 12)
    ∧ h.header_size = s.getD 1 0
    ∧ s.length = h.header_size + r.length := by
  rcases parseHeader_ok_shape s h r hp with ⟨idB, fam, b0, b1, c0, c1, h0, h1, hs, hh⟩ |
    ⟨idB, fam, b0, b1, b2, b3, c0, c1, h0, h1, hs, hh⟩ <;> subst hs <;> subst hh <;>
    simp <;> omega

/-- Decoding a complete 10-byte header: the data size is the unsigned
16-bit little-endian value of the 2 bytes after the family byte. -/
lemma parseHeader_cons10 (idB fam b0 b1 c0 c1 h0 h1 : Byte) (r : List Byte) :
    parseHeader (SYNC :: 10 :: idB :: fam :: b0 :: b1 :: c0 :: c1 :: h0 :: h1 :: r)
      = .ok (⟨SYNC, 10, idB, fam, b0 + 256 * b1,
              (c0 + 256 * c1) % 65536, (h0 + 256 * h1) % 65536⟩, r) := by
  simp [parseHeader, readDataSize]

/-- Decoding a complete 12-byte header: the data size is the unsigned
32-bit little-endian value of the 4 bytes after the family byte. -/
lemma parseHeader_cons12 (idB fam b0 b1 b2 b3 c0 c1 h0 h1 : Byte) (r : List Byte) :
    parseHeader (SYNC :: 12 :: idB :: fam :: b0 :: b1 :: b2 :: b3 :: c0 :: c1 :: h0 :: h1 :: r)
      = .ok (⟨SYNC, 12, idB, fam, b0 + 256 * (b1 + 256 * (b2 + 256 * b3)),
              (c0 + 256 * c1) % 65536, (h0 + 256 * h1) % 65536⟩, r) := by
  simp [parseHeader, readDataSize]

/-- One full loop iteration when the payload is fully available:
append the record (offset = cursor + header size), advance past the
payload, update the integrity flag by the checksum comparison. -/
lemma scanLoop_step (fuel : Nat) (stream : List Byte) (cindex : Nat) (acc : List Rec)
    (broken : Bool) (h : Header) (rest : List Byte)
    (hpar : parseHeader stream = .ok (h, rest))
    (hlen : h.data_size ≤ rest.length) :
    scanLoop (fuel + 1) stream cindex acc broken
      = scanLoop fuel (rest.drop h.data_size)
          (((cindex + h.header_size) % 4294967296 + h.data_size) % 4294967296)
          (acc ++ [⟨(cindex + h.header_size) % 4294967296, h.data_size, h.id⟩])
          (if cs (rest.take h.data_size) h.data_size ≠ h.data_checksum then true
           else broken) := by
  rw [scanLoop, hpar]
  simp [Nat.not_lt.mpr hlen]

/-- A successful scan loop appends to `acc` a record list chained from
the entry cursor position. -/
lemma scanLoop_recs_chained :
    ∀ (fuel : Nat) (stream : List Byte) (cindex : Nat) (acc : List Rec) (broken : Bool)
      (res : ScanResult),
      scanLoop fuel stream cindex acc broken = .ok res →
      ∃ new, res.recs = acc ++ new ∧ chainedFrom cindex new := by
  intro fuel
  induction fuel with
  | zero =>
    intro stream cindex acc broken res hp
    simp only [scanLoop, Except.ok.injEq] at hp
    exact ⟨[], by simp [← hp], trivial⟩
  | succ fuel ih =>
    intro stream cindex acc broken res hp
    rw [scanLoop] at hp
    cases hpar : parseHeader stream with
    | error e => rw [hpar] at hp; exact Except.noConfusion hp
    | ok pr =>
      obtain ⟨h, rest⟩ := pr
      rw [hpar] at hp
      simp only at hp
      by_cases hlen : rest.length < h.data_size
      · rw [if_pos hlen] at hp
        simp only [Except.ok.injEq] at hp
        exact ⟨[], by simp [← hp], trivial⟩
      · rw [if_neg hlen] at hp
        obtain ⟨new, hrecs, hch⟩ := ih _ _ _ _ _ hp
        refine ⟨⟨(cindex + h.header_size) % 4294967296, h.data_size, h.id⟩ :: new,
          by simp [hrecs], ?_, ?_⟩
        · rcases (parseHeader_ok_size _ _ _ hpar).1 with h10 | h12
          · exact Or.inl (by rw [h10])
          · exact Or.inr (by rw [h12])
        · exact hch

/-- Unfolds `chainedFrom` into the per-index relation
`offset[i+1] = (offset[i] + length[i] + header_size[i+1]) mod 2^32`. -/
lemma chainedFrom_consecutive :
    ∀ (l : List Rec) (c : Nat), chainedFrom c l →
      ∀ i : Nat, i + 1 < l.length →
        ∃ hs, (hs = 10 ∨ hs = 12) ∧
          (l.getD (i + 1) ⟨0, 0, 0⟩).index
            = ((l.getD i ⟨0, 0, 0⟩).index + (l.getD i ⟨0, 0, 0⟩).length + hs)
              % 4294967296 := by
  intro l
  induction l with
  | nil => intro c _ i hi; simp at hi
  | cons r rs ih =>
    intro c hch i hi
    cases i with
    | zero =>
      cases rs with
      | nil => simp at hi
      | cons r2 rs2 =>
        rcases hch.2.1 with ha | hb
        · refine ⟨10, Or.inl rfl, ?_⟩
          simpa [Nat.mod_add_mod] using ha
        · refine ⟨12, Or.inr rfl, ?_⟩
          simpa [Nat.mod_add_mod] using hb
    | succ j =>
      simpa using ih _ hch.2 j (by simpa using hi)

/-- The first record of a chained list sits at the chain start plus
its own header size, mod 2^32. -/
lemma chainedFrom_head (l : List Rec) (c : Nat) (hch : chainedFrom c l)
    (hne : 0 < l.length) :
    ∃ hs, (hs = 10 ∨ hs = 12) ∧ (l.getD 0 ⟨0, 0, 0⟩).index = (c + hs) % 4294967296 := by
  cases l with
  | nil => simp at hne
  | cons r rs =>
    rcases hch.1 with ha | hb
    · exact ⟨10, Or.inl rfl, by simpa using ha⟩
    · exact ⟨12, Or.inr rfl, by simpa using hb⟩

/-- The scan loop only uses the cursor position to label records:
running it from a cursor shifted by `m` (in the wrapping 32-bit
arithmetic) shifts every produced offset by `m` mod `2 ^ 32` and
changes nothing else. -/
lemma scanLoop_shift32 :
    ∀ (fuel : Nat) (stream : List Byte) (m c : Nat) (acc : List Rec) (broken : Bool),
      scanLoop fuel stream ((m + c) % 4294967296) (acc.map (shiftRec32 m)) broken
        = shiftResult32 m (scanLoop fuel stream c acc broken) := by
  intro fuel
  induction fuel with
  | zero => intros; simp [scanLoop, shiftResult32]
  | succ fuel ih =>
    intro stream m c acc broken
    rw [scanLoop, scanLoop]
    cases hpar : parseHeader stream with
    | error e => simp [shiftResult32]
    | ok pr =>
      obtain ⟨h, rest⟩ := pr
      by_cases hlen : rest.length < h.data_size
      · simp [hlen, shiftResult32]
      · simp only [if_neg hlen]
        have harith : (((m + c) % 4294967296 + h.header_size) % 4294967296 + h.data_size)
              % 4294967296
            = (m + ((c + h.header_size) % 4294967296 + h.data_size) % 4294967296)
              % 4294967296 := by
          omega
        have hmap : acc.map (shiftRec32 m)
              ++ [(⟨((m + c) % 4294967296 + h.header_size) % 4294967296,
                    h.data_size, h.id⟩ : Rec)]
            = (acc ++ [(⟨(c + h.header_size) % 4294967296, h.data_size, h.id⟩ : Rec)]).map
                (shiftRec32 m) := by
          simp only [List.map_append, List.map_cons, List.map_nil, shiftRec32]
          refine congrArg _ ?_
          have : ((m + c) % 4294967296 + h.header_size) % 4294967296
              = (m + (c + h.header_size) % 4294967296) % 4294967296 := by omega
          rw [this]
        rw [harith, hmap, ih]

/-- The sync search succeeds on a stream containing a sync byte after
garbage: it skips exactly the garbage (counted in the wrapping 32-bit
counter) and rewinds onto the sync byte. -/
lemma syncSearch_append (garbage rest : List Byte) (hg : ∀ x ∈ garbage, x ≠ SYNC) :
    syncSearch (garbage ++ SYNC :: rest)
      = some (garbage.length % 4294967296, SYNC :: rest) := by
  induction garbage with
  | nil => simp [syncSearch]
  | cons g gs ih =>
    have hgne : g ≠ SYNC := hg g (by simp)
    have htail : ∀ x ∈ gs, x ≠ SYNC := fun x hx => hg x (by simp [hx])
    simp only [List.cons_append, syncSearch, if_neg hgne, List.append_eq]
    rw [ih htail]
    simp [Nat.mod_add_mod]

/-- The sync search exhausts a stream containing no sync byte. -/
lemma syncSearch_none (stream : List Byte) (hs : ∀ x ∈ stream, x ≠ SYNC) :
    syncSearch stream = none := by
  induction stream with
  | nil => rfl
  | cons c rest ih =>
    have hcne : c ≠ SYNC := hs c (by simp)
    have : ∀ x ∈ rest, x ≠ SYNC := fun x hx => hs x (by simp [hx])
    simp [syncSearch, hcne, ih this]

/-- When the scan loop starts with an empty accumulator and emits at
least one record, the first record's offset is the entry cursor plus
the first frame's header-size byte (the second byte of the stream),
mod 2^32. -/
lemma scanLoop_first_record (fuel : Nat) (stream : List Byte) (c : Nat) (broken : Bool)
    (res : ScanResult) (hp : scanLoop fuel stream c [] broken = .ok res)
    (hne : 0 < res.recs.length) :
    (res.recs.getD 0 ⟨0, 0, 0⟩).index = (c + stream.getD 1 0) % 4294967296 := by
  cases fuel with
  | zero =>
    simp only [scanLoop, Except.ok.injEq] at hp
    rw [← hp] at hne
    simp at hne
  | succ fuel =>
    rw [scanLoop] at hp
    cases hpar : parseHeader stream with
    | error e => rw [hpar] at hp; exact Except.noConfusion hp
    | ok pr =>
      obtain ⟨h, rest⟩ := pr
      rw [hpar] at hp
      simp only at hp
      by_cases hlen : rest.length < h.data_size
      · rw [if_pos hlen] at hp
        simp only [Except.ok.injEq] at hp
        rw [← hp] at hne
        simp at hne
      · rw [if_neg hlen] at hp
        obtain ⟨new, hrecs, -⟩ := scanLoop_recs_chained _ _ _ _ _ _ hp
        rw [hrecs]
        simp [(parseHeader_ok_size _ _ _ hpar).2.1]

/-- A scan that returns a result went through the sync search and the
scan loop: this extracts the loop equation. -/
lemma do_ldc_ok_scanLoop (stream : List Byte) (f t b : Int) (res : ScanResult)
    (hok : do_ldc_ad2cp_in_file stream f t b = .ok res) :
    ∃ skipped rest, syncSearch stream = some (skipped, rest) ∧
      scanLoop t.toNat rest skipped [] false = .ok res := by
  unfold do_ldc_ad2cp_in_file at hok
  split at hok
  · exact Except.noConfusion hok
  split at hok
  · exact Except.noConfusion hok
  split at hok
  · exact Except.noConfusion hok
  cases hss : syncSearch stream with
  | none => rw [hss] at hok; exact Except.noConfusion hok
  | some pr =>
    obtain ⟨skipped, rest⟩ := pr
    rw [hss] at hok
    exact ⟨skipped, rest, rfl, hok⟩

/-- `specPairSum` of an all-ones list of even length. -/
lemma specPairSum_replicate_one :
    ∀ k : Nat, specPairSum (List.replicate (2 * k) 1) = 257 * k := by
  intro k
  induction k with
  | zero => simp [specPairSum]
  | succ n ih =>
    have h2 : 2 * (n + 1) = 2 * n + 1 + 1 := by ring
    rw [h2, List.replicate_succ, List.replicate_succ, specPairSum, ih]
    ring

/-- Reading anywhere in an all-zeros list (default 0) gives 0, in or
out of range. -/
lemma getD_replicate_zero (n i : Nat) : (List.replicate n (0 : Nat)).getD i 0 = 0 := by
  induction n generalizing i with
  | zero => simp
  | succ m ih =>
    cases i with
    | zero => simp [List.replicate_succ]
    | succ j => simp [List.replicate_succ, ih]

/-- The checksum loop over an all-zeros buffer leaves the accumulator
(reduced mod 2^16 once any iteration runs). -/
lemma csLoop_replicate_zero :
    ∀ (k n c : Nat), csLoop k (List.replicate n 0) c
      = if k = 0 then c else c % 65536 := by
  intro k
  induction k using Nat.strong_induction_on with
  | _ k ih =>
    rcases k with _ | (_ | k)
    · intro n c; rfl
    · intro n c
      simp [csLoop, getD_replicate_zero]
    · intro n c
      rw [csLoop, List.drop_replicate, getD_replicate_zero, getD_replicate_zero,
        ih k (by omega)]
      rw [if_neg (by omega : ¬ (k + 1 + 1 = 0))]
      split <;> omega

/-- C1: the claim (and the source's own doc comment, lines 34-37:
"setting this to 0 will retrieve *all* the data within the file") says
`to = 0` consumes the whole stream.  The code's loop condition
`while (chunk < to_value)` is false at once for `to_value = 0`, so the
scan of the one-frame stream `goodFrame` with `to = 0` returns zero
records, while `to = 1` on the same stream returns its one record;
the source's own `FIXME: use whole file here` (line 194) marks the
slip. -/
theorem C1_to_zero_scans_nothing :
    do_ldc_ad2cp_in_file goodFrame 1 0 1 = .ok ⟨[], false⟩
    ∧ do_ldc_ad2cp_in_file goodFrame 1 1 1 = .ok ⟨[⟨10, 2, 21⟩], false⟩ := by
  constructor <;> decide

/-- C2 counterexample: scanning `truncatedStream` (one complete valid
frame, then a frame whose header declares 4 payload bytes with only 1
byte left) stops gracefully and returns the first record, but the
integrity flag `brokenEnd` is `false`, not `true` as the claim states:
the source sets `broken_end` only on a checksum mismatch (line 283),
never on the truncation `break` (lines 272-276). -/
theorem C2_integrity_flag_not_set_on_truncation :
    do_ldc_ad2cp_in_file truncatedStream 1 2 1 = .ok ⟨[⟨10, 2, 21⟩], false⟩ := by
  decide

/-- C2 amended: if the byte source is exhausted while reading a
payload (fewer payload bytes available than the header's declared data
size), the scan stops without a fatal error: the in-progress record is
not added to the result, all previously emitted records are returned,
and the integrity flag is returned unchanged (in particular it stays
`false` when no checksum mismatch occurred before; it is not set by
the truncation). -/
theorem C2_truncation_stops_gracefully (fuel : Nat) (stream : List Byte) (cindex : Nat)
    (acc : List Rec) (broken : Bool) (h : Header) (rest : List Byte)
    (hpar : parseHeader stream = .ok (h, rest))
    (hlen : rest.length < h.data_size) :
    scanLoop (fuel + 1) stream cindex acc broken = .ok ⟨acc, broken⟩ := by
  rw [scanLoop, hpar]
  simp [hlen]

/-- C2 witness: the amended statement applied right after the first
frame of `truncatedStream` (cursor 12, one record emitted, flag
still false). -/
theorem C2_truncation_stops_gracefully_witness :
    scanLoop 1 [0xA5, 10, 22, 0x10, 4, 0, 0, 0, 0, 0, 9] 12 [⟨10, 2, 21⟩] false
      = .ok ⟨[⟨10, 2, 21⟩], false⟩ :=
  C2_truncation_stops_gracefully 0 _ 12 _ false ⟨0xA5, 10, 22, 0x10, 4, 0, 0⟩ [9]
    (by decide) (by decide)

/-- C3: a payload-checksum mismatch never stops the scan: the frame's
record is still appended to the index, the integrity flag becomes
`true`, and the loop continues at the following frame (the stream
advanced past the payload, the cursor past header and payload). -/
theorem C3_checksum_mismatch_continues (fuel : Nat) (stream : List Byte) (cindex : Nat)
    (acc : List Rec) (broken : Bool) (h : Header) (rest : List Byte)
    (hpar : parseHeader stream = .ok (h, rest))
    (hlen : h.data_size ≤ rest.length)
    (hcs : cs (rest.take h.data_size) h.data_size ≠ h.data_checksum) :
    scanLoop (fuel + 1) stream cindex acc broken
      = scanLoop fuel (rest.drop h.data_size)
          (((cindex + h.header_size) % 4294967296 + h.data_size) % 4294967296)
          (acc ++ [⟨(cindex + h.header_size) % 4294967296, h.data_size, h.id⟩]) true := by
  rw [scanLoop_step fuel stream cindex acc broken h rest hpar hlen, if_pos hcs]

/-- C3 witness: `badFrame`'s checksum field (0) differs from its
payload checksum (46733); the record is still emitted and the flag set. -/
theorem C3_checksum_mismatch_continues_witness :
    scanLoop 1 badFrame 0 [] false = scanLoop 0 [] 12 [⟨10, 2, 21⟩] true :=
  C3_checksum_mismatch_continues 0 badFrame 0 [] false ⟨0xA5, 10, 21, 0x10, 2, 0, 0⟩ [1, 1]
    (by decide) (by decide) (by decide)

/-- C4: the claim fails for payloads of 65536 bytes or more, which
header-size-12 frames support: `cs`'s `size` parameter is an
`unsigned short`, while the call site passes the up-to-32-bit
`data_size`, so for a 65538-byte all-ones payload the code checksums
only `65538 mod 2 ^ 16 = 2` bytes, yielding 46733, whereas the
claimed formula (spec §4.3, summed "across the payload") yields 13965
over all 65538 bytes.  The claim states the intended behaviour; the
narrowing conversion at `cs(dbuf, header.data_size)` is the slip. -/
theorem C4_checksum_size_truncated :
    cs (List.replicate 65538 1) 65538 = 46733
    ∧ specChecksum (List.replicate 65538 1) = 13965
    ∧ cs (List.replicate 65538 1) 65538 ≠ specChecksum (List.replicate 65538 1) := by
  have h1 : cs (List.replicate 65538 1) 65538 = 46733 := by decide
  have h2 : specChecksum (List.replicate 65538 1) = 13965 := by
    rw [specChecksum, show (65538 : Nat) = 2 * 32769 by norm_num,
      specPairSum_replicate_one]
  exact ⟨h1, h2, by rw [h1, h2]; decide⟩

/-- C5: the header-size byte selects the data-size width — for header
size 10 the data size is the unsigned 16-bit little-endian value of
the next 2 bytes, for header size 12 the unsigned 32-bit little-endian
value of the next 4 bytes; and a header-size-12 frame whose data size
exceeds 65535 decodes it exactly and exactly that many payload bytes
are then consumed (the loop continues at `tail`, past the
`data_size`-byte payload). -/
theorem C5_data_size_width :
    (∀ (idB fam b0 b1 c0 c1 h0 h1 : Byte) (r : List Byte),
        parseHeader (SYNC :: 10 :: idB :: fam :: b0 :: b1 :: c0 :: c1 :: h0 :: h1 :: r)
          = .ok (⟨SYNC, 10, idB, fam, b0 + 256 * b1,
                  (c0 + 256 * c1) % 65536, (h0 + 256 * h1) % 65536⟩, r))
    ∧ (∀ (idB fam b0 b1 b2 b3 c0 c1 h0 h1 : Byte) (r : List Byte),
        parseHeader (SYNC :: 12 :: idB :: fam :: b0 :: b1 :: b2 :: b3 :: c0 :: c1 :: h0 :: h1 :: r)
          = .ok (⟨SYNC, 12, idB, fam, b0 + 256 * (b1 + 256 * (b2 + 256 * b3)),
                  (c0 + 256 * c1) % 65536, (h0 + 256 * h1) % 65536⟩, r))
    ∧ (∀ (idB fam b0 b1 b2 b3 c0 c1 h0 h1 : Byte) (payload tail : List Byte)
         (fuel cindex : Nat) (acc : List Rec) (broken : Bool),
        payload.length = b0 + 256 * (b1 + 256 * (b2 + 256 * b3)) →
        65535 < b0 + 256 * (b1 + 256 * (b2 + 256 * b3)) →
        ∃ broken1,
          scanLoop (fuel + 1)
              (SYNC :: 12 :: idB :: fam :: b0 :: b1 :: b2 :: b3 :: c0 :: c1 :: h0 :: h1 ::
                (payload ++ tail))
              cindex acc broken
            = scanLoop fuel tail
                (((cindex + 12) % 4294967296 + (b0 + 256 * (b1 + 256 * (b2 + 256 * b3))))
                  % 4294967296)
                (acc ++ [⟨(cindex + 12) % 4294967296,
                  b0 + 256 * (b1 + 256 * (b2 + 256 * b3)), idB⟩])
                broken1) := by
  refine ⟨parseHeader_cons10, parseHeader_cons12, ?_⟩
  intro idB fam b0 b1 b2 b3 c0 c1 h0 h1 payload tail fuel cindex acc broken hplen hbig
  have hpar := parseHeader_cons12 idB fam b0 b1 b2 b3 c0 c1 h0 h1 (payload ++ tail)
  have hlen : (⟨SYNC, 12, idB, fam, b0 + 256 * (b1 + 256 * (b2 + 256 * b3)),
      (c0 + 256 * c1) % 65536, (h0 + 256 * h1) % 65536⟩ : Header).data_size
      ≤ (payload ++ tail).length := by
    simp only [List.length_append]
    omega
  have hstep := scanLoop_step fuel _ cindex acc broken _ (payload ++ tail) hpar hlen
  dsimp only at hstep
  have hdrop : (payload ++ tail).drop (b0 + 256 * (b1 + 256 * (b2 + 256 * b3))) = tail := by
    rw [← hplen, List.drop_left]
  have htake : (payload ++ tail).take (b0 + 256 * (b1 + 256 * (b2 + 256 * b3))) = payload := by
    rw [← hplen, List.take_left]
  rw [hdrop, htake] at hstep
  exact ⟨_, hstep⟩

/-- C5 witness: a header-size-12 frame declaring a 65538-byte payload
(decoded from little-endian bytes `2, 0, 1, 0`), followed by exactly
65538 payload bytes: the record has length 65538 and the loop
continues after the payload. -/
theorem C5_data_size_width_witness :
    ∃ broken1,
      scanLoop 1
          (SYNC :: 12 :: 21 :: 0x10 :: 2 :: 0 :: 1 :: 0 :: 0 :: 0 :: 0 :: 0 ::
            (List.replicate 65538 1 ++ []))
          0 [] false
        = scanLoop 0 [] (0 + 12 + (2 + 256 * (0 + 256 * (1 + 256 * 0))))
            ([] ++ [⟨0 + 12, 2 + 256 * (0 + 256 * (1 + 256 * 0)), 21⟩]) broken1 :=
  C5_data_size_width.2.2 21 0x10 2 0 1 0 0 0 0 0 (List.replicate 65538 1) [] 0 0 [] false
    (by rw [List.length_replicate]) (by norm_num)

/-- C6 counterexample: in `bigStream` the first frame's
4294967284-byte payload carries the 32-bit cursor from 12 to exactly
`2 ^ 32`, which wraps to 0, so the second record's offset is 10: the
scan returns offsets `[12, 10]`, which are not strictly increasing and
do not satisfy `offset[1] = offset[0] + length[0] + hs` for any header
size `hs ∈ {10, 12}`.  The narrowing into the returned
`IntegerVector`s (`rReturn`) additionally turns `length[0] =
4294967284` into the 32-bit signed value -12. -/
theorem C6_offsets_wrap_counterexample :
    do_ldc_ad2cp_in_file bigStream 1 2 1
      = .ok ⟨[⟨12, 4294967284, 21⟩, ⟨10, 2, 22⟩], false⟩
    ∧ ¬ (12 : Nat) < 10
    ∧ (∀ hs : Nat, hs = 10 ∨ hs = 12 → (10 : Nat) ≠ 12 + 4294967284 + hs)
    ∧ rReturn ⟨[⟨12, 4294967284, 21⟩, ⟨10, 2, 22⟩], false⟩
      = ([12, 10], [-12, 2], [21, 22], 0) := by
  refine ⟨?_, by omega, by intro hs h; rcases h with h | h <;> omega, by decide⟩
  have hdo : do_ldc_ad2cp_in_file bigStream 1 2 1 = scanLoop 2 bigStream 0 [] false := by
    have hsync : syncSearch bigStream = some (0, bigStream) := by
      show syncSearch
          (0xA5 :: 12 :: 21 :: 0x10 :: 244 :: 255 :: 255 :: 255 :: 140 :: 181 :: 0 :: 0 ::
            bigTail)
        = some (0, bigStream)
      rw [syncSearch, if_pos (show (0xA5 : Nat) = SYNC from rfl)]
      rfl
    unfold do_ldc_ad2cp_in_file
    rw [if_neg (by norm_num : ¬ (1 : Int) < 0), if_neg (by norm_num : ¬ (2 : Int) < 0),
      if_neg (by norm_num : ¬ (1 : Int) < 0), hsync]
    rfl
  have hpar := parseHeader_cons12 21 0x10 244 255 255 255 140 181 0 0 bigTail
  have hstep := scanLoop_step 1 bigStream 0 [] false
      ⟨SYNC, 12, 21, 0x10, 244 + 256 * (255 + 256 * (255 + 256 * 255)),
        (140 + 256 * 181) % 65536, (0 + 256 * 0) % 65536⟩ bigTail hpar
      (by
        show (244 + 256 * (255 + 256 * (255 + 256 * 255)) : Nat)
            ≤ (List.replicate 4294967284 (0 : Nat) ++ goodFrame2).length
        rw [List.length_append, List.length_replicate]
        norm_num [goodFrame2])
  dsimp only at hstep
  rw [show (244 + 256 * (255 + 256 * (255 + 256 * 255)) : Nat) = 4294967284 from by norm_num,
    show ((140 + 256 * 181) % 65536 : Nat) = 46476 from by norm_num,
    show ((0 + 12) % 4294967296 : Nat) = 12 from by norm_num,
    show ((12 + 4294967284) % 4294967296 : Nat) = 0 from by norm_num,
    show bigTail.drop 4294967284 = goodFrame2 from
      List.drop_left' (by rw [List.length_replicate]),
    show bigTail.take 4294967284 = List.replicate 4294967284 0 from
      List.take_left' (by rw [List.length_replicate]),
    show cs (List.replicate 4294967284 0) 4294967284 = 46476 from by
      rw [cs, show (4294967284 : Nat) % 65536 = 65524 from by norm_num,
        csLoop_replicate_zero]
      norm_num,
    if_neg (by simp : ¬ (46476 : Nat) ≠ 46476), List.nil_append] at hstep
  have hlast : scanLoop 1 goodFrame2 0 [⟨12, 4294967284, 21⟩] false
      = .ok ⟨[⟨12, 4294967284, 21⟩, ⟨10, 2, 22⟩], false⟩ := by decide
  exact hdo.trans (hstep.trans hlast)

/-- C6 amended: in every returned result, consecutive record
descriptors satisfy
`offset[i+1] = (offset[i] + length[i] + hs) mod 2^32` for the
following frame's header size `hs ∈ {10, 12}` — the cursor is a
wrapping `unsigned int`; offsets are strictly increasing whenever that
sum stays below `2 ^ 32` (in particular on any stream shorter than
4 GiB), but not in general; and the first record's offset is the
(wrapped) count of bytes skipped by sync recovery plus the first
frame's header size, mod `2 ^ 32` (skipped bytes are absorbed into
`offset[0]`). -/
theorem C6_offset_chain_mod32 (stream : List Byte) (f t b : Int) (res : ScanResult)
    (hres : do_ldc_ad2cp_in_file stream f t b = .ok res) :
    (∀ i : Nat, i + 1 < res.recs.length →
        ∃ hs, (hs = 10 ∨ hs = 12) ∧
          (res.recs.getD (i + 1) ⟨0, 0, 0⟩).index
            = ((res.recs.getD i ⟨0, 0, 0⟩).index + (res.recs.getD i ⟨0, 0, 0⟩).length + hs)
              % 4294967296)
    ∧ (∀ i : Nat, i + 1 < res.recs.length →
        (res.recs.getD i ⟨0, 0, 0⟩).index + (res.recs.getD i ⟨0, 0, 0⟩).length + 12
            < 4294967296 →
        (res.recs.getD i ⟨0, 0, 0⟩).index < (res.recs.getD (i + 1) ⟨0, 0, 0⟩).index)
    ∧ (∀ skipped rest, syncSearch stream = some (skipped, rest) →
        0 < res.recs.length →
        ∃ hs, (hs = 10 ∨ hs = 12) ∧
          (res.recs.getD 0 ⟨0, 0, 0⟩).index = (skipped + hs) % 4294967296) := by
  obtain ⟨skipped, rest, hss, hloop⟩ := do_ldc_ok_scanLoop stream f t b res hres
  obtain ⟨new, hrecs, hch⟩ := scanLoop_recs_chained _ _ _ _ _ _ hloop
  simp only [List.nil_append] at hrecs
  have hcons := chainedFrom_consecutive new skipped hch
  refine ⟨?_, ?_, ?_⟩
  · intro i hi
    rw [hrecs] at hi ⊢
    exact hcons i hi
  · intro i hi hsmall
    rw [hrecs] at hi hsmall ⊢
    obtain ⟨hs, hs1012, heq⟩ := hcons i hi
    rcases hs1012 with h | h <;> subst h <;> omega
  · intro skipped2 rest2 hss2 hne
    rw [hss] at hss2
    simp only [Option.some.injEq, Prod.mk.injEq] at hss2
    rw [hrecs] at hne ⊢
    rw [← hss2.1]
    exact chainedFrom_head new skipped hch hne

/-- C6 witness: the two-frame stream `goodFrame ++ goodFrame2` yields
records at offsets 10 and 22 with `22 = (10 + 2 + 10) mod 2^32`. -/
theorem C6_offset_chain_mod32_witness :
    ∃ hs, (hs = 10 ∨ hs = 12) ∧
      ((ScanResult.mk [⟨10, 2, 21⟩, ⟨22, 2, 22⟩] false).recs.getD 1 ⟨0, 0, 0⟩).index
        = (((ScanResult.mk [⟨10, 2, 21⟩, ⟨22, 2, 22⟩] false).recs.getD 0 ⟨0, 0, 0⟩).index
            + ((ScanResult.mk [⟨10, 2, 21⟩, ⟨22, 2, 22⟩] false).recs.getD 0 ⟨0, 0, 0⟩).length
            + hs) % 4294967296 :=
  (C6_offset_chain_mod32 (goodFrame ++ goodFrame2) 1 2 1 ⟨[⟨10, 2, 21⟩, ⟨22, 2, 22⟩], false⟩
      (by decide)).1 0 (by decide)

/-- C7 counterexample: prepending `2 ^ 32` non-sync bytes wraps the
32-bit skip counter back to 0, so the scan of the prefixed stream
returns exactly the untouched result — the first record's offset stays
10 instead of increasing by the prefix length `M = 4294967296` (under
either reading of the claim, the offset would have to become at least
`M + 10 ≠ 10`). -/
theorem C7_wraparound_counterexample :
    do_ldc_ad2cp_in_file (List.replicate 4294967296 1 ++ goodFrame) 1 1 1
      = .ok ⟨[⟨10, 2, 21⟩], false⟩
    ∧ do_ldc_ad2cp_in_file goodFrame 1 1 1 = .ok ⟨[⟨10, 2, 21⟩], false⟩
    ∧ (4294967296 : Nat) + 10 ≠ 10 := by
  refine ⟨?_, by decide, by norm_num⟩
  have hg : ∀ x ∈ List.replicate 4294967296 (1 : Nat), x ≠ SYNC := by
    intro x hx
    rw [List.eq_of_mem_replicate hx]
    decide
  have hsync := syncSearch_append (List.replicate 4294967296 1)
      [10, 21, 0x10, 2, 0, 141, 182, 0, 0, 1, 1] hg
  rw [List.length_replicate,
    show (4294967296 : Nat) % 4294967296 = 0 from by norm_num] at hsync
  unfold do_ldc_ad2cp_in_file
  rw [if_neg (by norm_num : ¬ (1 : Int) < 0), if_neg (by norm_num : ¬ (1 : Int) < 0),
    if_neg (by norm_num : ¬ (1 : Int) < 0),
    show List.replicate 4294967296 (1 : Nat) ++ goodFrame
      = List.replicate 4294967296 1 ++ SYNC :: [10, 21, 0x10, 2, 0, 141, 182, 0, 0, 1, 1]
      from rfl,
    hsync]
  decide

/-- C7 amended: prepending `M` non-sync bytes to a stream that starts
with a sync byte shifts every record offset by `M` in the wrapping
32-bit cursor arithmetic, i.e. to `(M + offset) mod 2^32`, and changes
nothing else (same record count, lengths, ids, same integrity flag,
same error if any); in particular the first record's offset becomes
`(M + first frame's header-size byte) mod 2^32` — exactly `M` plus the
header size whenever that sum stays below `2 ^ 32`. -/
theorem C7_garbage_shift_mod32 (garbage rest : List Byte) (f t b : Int)
    (hg : ∀ x ∈ garbage, x ≠ SYNC) :
    do_ldc_ad2cp_in_file (garbage ++ SYNC :: rest) f t b
      = shiftResult32 garbage.length (do_ldc_ad2cp_in_file (SYNC :: rest) f t b)
    ∧ (∀ res res',
        do_ldc_ad2cp_in_file (SYNC :: rest) f t b = .ok res →
        do_ldc_ad2cp_in_file (garbage ++ SYNC :: rest) f t b = .ok res' →
        res'.recs.length = res.recs.length
        ∧ res'.recs.map Rec.length = res.recs.map Rec.length
        ∧ res'.recs.map Rec.id = res.recs.map Rec.id
        ∧ res'.brokenEnd = res.brokenEnd
        ∧ (0 < res.recs.length →
            (res.recs.getD 0 ⟨0, 0, 0⟩).index = rest.getD 0 0 % 4294967296
            ∧ (res'.recs.getD 0 ⟨0, 0, 0⟩).index
              = (garbage.length + rest.getD 0 0) % 4294967296)) := by
  have hmain : do_ldc_ad2cp_in_file (garbage ++ SYNC :: rest) f t b
      = shiftResult32 garbage.length (do_ldc_ad2cp_in_file (SYNC :: rest) f t b) := by
    unfold do_ldc_ad2cp_in_file
    by_cases hf : f < 0
    · simp [hf, shiftResult32]
    by_cases ht : t < 0
    · simp [hf, ht, shiftResult32]
    by_cases hb : b < 0
    · simp [hf, ht, hb, shiftResult32]
    simp only [if_neg hf, if_neg ht, if_neg hb]
    rw [syncSearch_append garbage rest hg]
    have hss : syncSearch (SYNC :: rest) = some (0, SYNC :: rest) := by
      simp [syncSearch]
    rw [hss]
    have := scanLoop_shift32 t.toNat (SYNC :: rest) garbage.length 0 [] false
    simpa using this
  refine ⟨hmain, ?_⟩
  intro res res' hok hok'
  rw [hmain, hok] at hok'
  have hres' : res' = ⟨res.recs.map (shiftRec32 garbage.length), res.brokenEnd⟩ :=
    (Except.ok.inj hok').symm
  subst hres'
  obtain ⟨skipped, rest0, hss, hloop⟩ := do_ldc_ok_scanLoop _ f t b res hok
  have hss0 : syncSearch (SYNC :: rest) = some (0, SYNC :: rest) := by
    simp [syncSearch]
  rw [hss0] at hss
  simp only [Option.some.injEq, Prod.mk.injEq] at hss
  rw [← hss.1, ← hss.2] at hloop
  refine ⟨by simp, by simp [shiftRec32], by simp [shiftRec32], rfl, ?_⟩
  intro hne
  have hhead := scanLoop_first_record _ _ _ _ _ hloop hne
  have hh2 : (res.recs.getD 0 ⟨0, 0, 0⟩).index = rest.getD 0 0 % 4294967296 := by
    simpa using hhead
  refine ⟨hh2, ?_⟩
  cases hrecs : res.recs with
  | nil => rw [hrecs] at hne; simp at hne
  | cons r rs =>
    rw [hrecs] at hh2
    simp only [List.getD_cons_zero] at hh2
    simp only [List.map_cons, List.getD_cons_zero, shiftRec32, hh2]
    omega

/-- C7 witness for the amended statement: prepending the three
non-sync bytes `[1, 2, 3]` to `goodFrame` shifts the whole successful
result by 3 (mod 2^32). -/
theorem C7_garbage_shift_mod32_witness :
    do_ldc_ad2cp_in_file ([1, 2, 3] ++ SYNC :: [10, 21, 0x10, 2, 0, 141, 182, 0, 0, 1, 1]) 1 1 1
      = shiftResult32 ([1, 2, 3] : List Byte).length
          (do_ldc_ad2cp_in_file (SYNC :: [10, 21, 0x10, 2, 0, 141, 182, 0, 0, 1, 1]) 1 1 1) :=
  (C7_garbage_shift_mod32 [1, 2, 3] [10, 21, 0x10, 2, 0, 141, 182, 0, 0, 1, 1] 1 1 1
    (by decide)).1

/-- C8: header-decoding failures are fatal and discard the whole
result, even records already decoded: (1) any header-level error makes
the running scan return that error, dropping the accumulated records;
(2) a header-size byte outside {10, 12} always fails header decoding;
(3) a sync-led stream shorter than 10 bytes fails header decoding (a
field read comes up short); (4) so does a header-size-12 stream
shorter than 12 bytes. -/
theorem C8_header_errors_abort :
    (∀ (fuel : Nat) (stream : List Byte) (cindex : Nat) (acc : List Rec) (broken : Bool)
        (e : ScanError), parseHeader stream = .error e →
        scanLoop (fuel + 1) stream cindex acc broken = .error e)
    ∧ (∀ (hsz idB fam : Byte) (rest : List Byte), hsz ≠ 10 → hsz ≠ 12 →
        ∃ e, parseHeader (SYNC :: hsz :: idB :: fam :: rest) = .error e)
    ∧ (∀ stream : List Byte, stream.getD 0 0 = SYNC → stream.length < 10 →
        ∃ e, parseHeader stream = .error e)
    ∧ (∀ rest : List Byte, rest.getD 0 0 = 12 → rest.length < 11 →
        ∃ e, parseHeader (SYNC :: rest) = .error e) := by
  refine ⟨?_, ?_, ?_, ?_⟩
  · intro fuel stream cindex acc broken e hpe
    rw [scanLoop, hpe]
  · intro hsz idB fam rest h10 h12
    cases hph : parseHeader (SYNC :: hsz :: idB :: fam :: rest) with
    | error e => exact ⟨e, rfl⟩
    | ok pr =>
      obtain ⟨h, r⟩ := pr
      rcases parseHeader_ok_shape _ _ _ hph with ⟨_, _, _, _, _, _, _, _, hs, -⟩ |
        ⟨_, _, _, _, _, _, _, _, _, _, hs, -⟩
      · exact absurd (List.cons.inj (List.cons.inj hs).2).1 h10
      · exact absurd (List.cons.inj (List.cons.inj hs).2).1 h12
  · intro stream hsync hshort
    cases hph : parseHeader stream with
    | error e => exact ⟨e, rfl⟩
    | ok pr =>
      obtain ⟨h, r⟩ := pr
      obtain ⟨h1012, -, hlen⟩ := parseHeader_ok_size _ _ _ hph
      omega
  · intro rest hsz12 hshort
    cases hph : parseHeader (SYNC :: rest) with
    | error e => exact ⟨e, rfl⟩
    | ok pr =>
      obtain ⟨h, r⟩ := pr
      obtain ⟨-, hsz, hlen⟩ := parseHeader_ok_size _ _ _ hph
      simp only [List.getD_cons_succ] at hsz
      rw [hsz12] at hsz
      simp only [List.length_cons] at hlen
      omega

/-- C8 witness: the four conjuncts at concrete inputs — the loop with
one record accumulated aborts on an empty stream; header size 11 is
rejected; a 9-byte sync-led stream and a 2-byte header-size-12 stream
both fail decoding. -/
theorem C8_header_errors_abort_witness :
    scanLoop 1 [] 0 [⟨10, 2, 21⟩] false = .error .cannotReadSync
    ∧ (∃ e, parseHeader [SYNC, 11, 21, 0x10] = .error e)
    ∧ (∃ e, parseHeader [SYNC, 10, 21, 0x10, 2, 0, 0, 0, 0] = .error e)
    ∧ (∃ e, parseHeader [SYNC, 12] = .error e) :=
  ⟨C8_header_errors_abort.1 0 [] 0 [⟨10, 2, 21⟩] false .cannotReadSync (by decide),
   C8_header_errors_abort.2.1 11 21 0x10 [] (by decide) (by decide),
   C8_header_errors_abort.2.2.1 [SYNC, 10, 21, 0x10, 2, 0, 0, 0, 0] (by decide) (by decide),
   C8_header_errors_abort.2.2.2 [12] (by decide) (by decide)⟩

/-- C9: a stream containing no 0xA5 byte at all makes the scan fail
fatally with the no-sync error before any header is decoded — no
result, not even an empty record list, is returned (the `from`, `to`,
`by` parameters must be nonnegative, since their checks run first). -/
theorem C9_no_sync_fatal (stream : List Byte) (f t b : Int)
    (hs : ∀ x ∈ stream, x ≠ SYNC) (hf : 0 ≤ f) (ht : 0 ≤ t) (hb : 0 ≤ b) :
    do_ldc_ad2cp_in_file stream f t b = .error .noSync := by
  unfold do_ldc_ad2cp_in_file
  rw [if_neg (not_lt.mpr hf), if_neg (not_lt.mpr ht), if_neg (not_lt.mpr hb),
    syncSearch_none stream hs]

/-- C9 witness: the sync-free stream `[1, 2, 3]`. -/
theorem C9_no_sync_fatal_witness :
    do_ldc_ad2cp_in_file [1, 2, 3] 0 0 0 = .error .noSync :=
  C9_no_sync_fatal [1, 2, 3] 0 0 0 (by decide) (by decide) (by decide) (by decide)

/-- C10: the `from` and `by` parameters are only checked for
negativity.  Two runs on the same stream with the same `to` but any
nonnegative `from` and `by` values return identical results (records,
offsets, lengths, ids and integrity flag alike); negative `from` or
`by` is fatal. -/
theorem C10_from_by_no_influence (stream : List Byte) (f1 f2 t b1 b2 f3 b3 : Int)
    (hf1 : 0 ≤ f1) (hf2 : 0 ≤ f2) (hb1 : 0 ≤ b1) (hb2 : 0 ≤ b2)
    (hf3 : f3 < 0) (ht : 0 ≤ t) (hb3 : b3 < 0) :
    do_ldc_ad2cp_in_file stream f1 t b1 = do_ldc_ad2cp_in_file stream f2 t b2
    ∧ do_ldc_ad2cp_in_file stream f3 t b1 = .error .negativeFrom
    ∧ do_ldc_ad2cp_in_file stream f1 t b3 = .error .negativeBy := by
  unfold do_ldc_ad2cp_in_file
  refine ⟨?_, ?_, ?_⟩
  · rw [if_neg (not_lt.mpr hf1), if_neg (not_lt.mpr hf2),
      if_neg (not_lt.mpr hb1), if_neg (not_lt.mpr hb2)]
  · rw [if_pos hf3]
  · rw [if_neg (not_lt.mpr hf1), if_neg (not_lt.mpr ht), if_pos hb3]

/-- C10 witness: `from` 1 vs 7 and `by` 1 vs 9 on `goodFrame` agree;
`from = -1` and `by = -2` are fatal. -/
theorem C10_from_by_no_influence_witness :
    do_ldc_ad2cp_in_file goodFrame 1 1 1 = do_ldc_ad2cp_in_file goodFrame 7 1 9
    ∧ do_ldc_ad2cp_in_file goodFrame (-1) 1 1 = .error .negativeFrom
    ∧ do_ldc_ad2cp_in_file goodFrame 1 1 (-2) = .error .negativeBy :=
  C10_from_by_no_influence goodFrame 1 7 1 1 9 (-1) (-2) (by decide) (by decide)
    (by decide) (by decide) (by decide) (by decide) (by decide)

end Ad2cp
